import Mathlib

/-!
Verification of the context-classifying rewrite engine of the
java-version-migration repository (python port under src/python).

Documents are modelled as lists of characters (`Str`).  Python string
primitives (`find`, `rfind`, `count`, slicing, `strip`) are embedded as
executable functions with Python's `-1` conventions kept as `Int` results.
The concrete regular expressions of the source are embedded as explicit
scanners over the same character lists; all inputs considered are ASCII, so
Python's `\w` and `\s` classes are the ASCII word/space classes below.
-/

set_option maxRecDepth 8000

abbrev Str := List Char

def str (s : String) : Str := s.data

/-- Python `str.isspace`-style class used by `\s` and `str.strip()` (ASCII). -/
def pyIsSpace (c : Char) : Bool :=
  c = ' ' || c = '\t' || c = '\n' || c = '\r' || c = '\x0b' || c = '\x0c'

/-- Python regex `\w` class (ASCII). -/
def isWordChar (c : Char) : Bool :=
  c.isAlpha || c.isDigit || c = '_'

/-- Python slice `xs[a:b]` (indices clamp as in Python for `0 ≤ a ≤ b`). -/
def pySlice (xs : Str) (a b : Nat) : Str := (xs.take b).drop a

/-- Character at index `i`, `none` past the end. -/
def charAt (xs : Str) (i : Nat) : Option Char := (xs.drop i).head?

/-- Python `hay.find(needle, start)`: least index `≥ start` where `needle`
occurs, `-1` if none. -/
def pyFindFrom (hay needle : Str) (start : Nat) : Int :=
  match (List.range (hay.length + 1)).find?
      (fun i => start ≤ i && needle.isPrefixOf (hay.drop i)) with
  | some i => (i : Int)
  | none => -1

/-- Python `hay.find(needle)`. -/
def pyFind (hay needle : Str) : Int := pyFindFrom hay needle 0

/-- Python `hay.rfind(needle)`: greatest index where `needle` occurs, `-1`
if none. -/
def pyRFind (hay needle : Str) : Int :=
  match ((List.range (hay.length + 1)).filter
      (fun i => needle.isPrefixOf (hay.drop i))).getLast? with
  | some i => (i : Int)
  | none => -1

/-- Python `needle in hay` (substring containment). -/
def containsStr (hay needle : Str) : Bool :=
  (List.range (hay.length + 1)).any (fun i => needle.isPrefixOf (hay.drop i))

/-- Python `hay.count(needle)`: non-overlapping occurrence count. -/
def pyCount (hay needle : Str) : Nat :=
  ((List.range hay.length).foldl
    (fun (acc : Nat × Nat) i =>
      if acc.2 ≤ i && needle ≠ [] && needle.isPrefixOf (hay.drop i) then
        (acc.1 + 1, i + needle.length)
      else acc)
    (0, 0)).1

/-- Python `s.lstrip()`. -/
def lstripWs (xs : Str) : Str := xs.dropWhile pyIsSpace

/-- Python `s.rstrip()`. -/
def rstripWs (xs : Str) : Str := (xs.reverse.dropWhile pyIsSpace).reverse

/-- Python `s.strip()`. -/
def pyStrip (xs : Str) : Str := rstripWs (lstripWs xs)

/-- `Content` dataclass: new text plus a changed flag. -/
structure Content where
  content : Str
  changed : Bool
deriving DecidableEq

/-- `MigrationConfig` dataclass.  Only `path.name` is ever consulted, so the
path is modelled by its final component; `files` is the sibling map (a dict,
modelled as an association list with distinct keys). -/
structure MigrationConfig where
  pathName : Str
  files : List (Str × Str)

/-- Python `files.get(name, "")`. -/
def assocGet (files : List (Str × Str)) (name : Str) : Str :=
  match files.find? (fun kv => kv.1 == name) with
  | some kv => kv.2
  | none => []

/-! ### angular_html_signal_migration.py -/

/-- `_is_inside_comment` (lines 463-478): line-local check for `<!--` with no
later `-->` before `pos`. -/
def isInsideComment (line : Str) (pos : Nat) : Bool :=
  let before := line.take pos
  let lcs := pyRFind before (str ("<!--"))
  let lce := pyRFind before (str ("-->"))
  if lcs ≠ -1 then
    if lce = -1 || lce < lcs then true else false
  else false

/-- The regex `class\s*=\s*(['\x22])([^'\x22]*$)` of `_is_inside_string`:
because of the `[^'\x22]*$` tail the matched quote must be the last quote
character of `before`, preceded by `class` + spaces + `=` + spaces.  Returns
the quote character on a match. -/
def classAttrQuote (before : Str) : Option Char :=
  match ((List.range before.length).filter
      (fun i => (charAt before i).any (fun c => c = '\x27' || c = '\x22'))).getLast? with
  | none => none
  | some j =>
    let p1 := (before.take j).reverse.dropWhile pyIsSpace
    match p1 with
    | '=' :: p2 =>
      let p3 := p2.dropWhile pyIsSpace
      if (str ("class")).reverse.isPrefixOf p3 then charAt before j else none
    | _ => none

/-- The regex `\s(\w+)\s*=\s*(['\x22])([^'\x22]*$)` of `_is_inside_string`:
last quote of `before`, preceded by spaces, `=`, spaces, a nonempty word run,
and a whitespace character immediately before that run.  Returns the quote
character on a match (the captured attribute name is a `\w+` run, so the
source's `startswith('[')`/`startswith('(')` tests on it are always false). -/
def attrQuote (before : Str) : Option Char :=
  match ((List.range before.length).filter
      (fun i => (charAt before i).any (fun c => c = '\x27' || c = '\x22'))).getLast? with
  | none => none
  | some j =>
    let p1 := (before.take j).reverse.dropWhile pyIsSpace
    match p1 with
    | '=' :: p2 =>
      let p3 := p2.dropWhile pyIsSpace
      let w := p3.takeWhile isWordChar
      if w ≠ [] && (p3.drop w.length).head?.any pyIsSpace then charAt before j
      else none
    | _ => none

/-- Lines 390-396 guard of `_is_inside_string`: the position follows an
unclosed `\x7b\x7b` and a `\x7d\x7d` occurs later in the line. -/
def interpolationGuard (before after : Str) : Bool :=
  let ldo := pyRFind before (str ("\x7b\x7b"))
  let ldc := pyRFind before (str ("\x7d\x7d"))
  ldo ≠ -1 && (ldc = -1 || ldc < ldo) && containsStr after (str ("\x7d\x7d"))

/-- Lines 398-410 of `_is_inside_string`: within an interpolation the
position counts as a string iff the unescaped quote count since the
`\x7b\x7b` is odd (for either quote kind). -/
def interpOddQuotes (before : Str) : Bool :=
  let ldo := pyRFind before (str ("\x7b\x7b"))
  let textAfterOpen := before.drop (ldo + 2).toNat
  let singleQuotes : Int :=
    (pyCount textAfterOpen (str ("\x27")) : Int) - (pyCount textAfterOpen (str ("\x5c\x27")) : Int)
  let doubleQuotes : Int :=
    (pyCount textAfterOpen (str ("\x22")) : Int) - (pyCount textAfterOpen (str ("\x5c\x22")) : Int)
  decide (singleQuotes % 2 = 1) || decide (doubleQuotes % 2 = 1)

/-- Lines 412-438 of `_is_inside_string`: a quote right after the last `=`
with a closing quote later, where the text before the `=` ends in `]` or `)`
or mentions ` @if ` / ` @for ` / ` @switch ` — an Angular binding expression,
not a string. -/
def bindingExprCheck (before after : Str) : Bool :=
  let lastEquals := pyRFind before (str ("="))
  if lastEquals ≠ -1 then
    match ((before.drop (lastEquals + 1).toNat).dropWhile pyIsSpace).head? with
    | some qc =>
      if qc = '\x22' || qc = '\x27' then
        let quoteStart := pyFindFrom before [qc] lastEquals.toNat
        if pyFind (before.drop (quoteStart + 1).toNat ++ after) [qc] ≠ -1 then
          let sectionBeforeEquals := rstripWs (before.take lastEquals.toNat)
          decide (sectionBeforeEquals.getLast? = some ']') ||
          decide (sectionBeforeEquals.getLast? = some ')') ||
          containsStr sectionBeforeEquals (str (" @if ")) ||
          containsStr sectionBeforeEquals (str (" @for ")) ||
          containsStr sectionBeforeEquals (str (" @switch "))
        else false
      else false
    | none => false
  else false

/-- `_is_inside_string` (lines 378-461): interpolation branch (which falls
through when no `\x7d\x7d` follows), then the binding-expression branch, then
the `class=` and generic-attribute heuristics, each requiring a closing quote
after the position to report a string. -/
def isInsideString (line : Str) (pos : Nat) : Bool :=
  if interpolationGuard (line.take pos) (line.drop pos) then
    interpOddQuotes (line.take pos)
  else if bindingExprCheck (line.take pos) (line.drop pos) then false
  else
    match classAttrQuote (line.take pos) with
    | some qc =>
      if (line.drop pos).contains qc then true
      else
        match attrQuote (line.take pos) with
        | some qc2 => if (line.drop pos).contains qc2 then true else false
        | none => false
    | none =>
      match attrQuote (line.take pos) with
      | some qc2 => if (line.drop pos).contains qc2 then true else false
      | none => false

/-- The 10-character lookback window `line[max(0, start-10):start]`
(line 250). -/
def sapBefore (line : Str) (start : Nat) : Str := pySlice line (start - 10) start

/-- The 10-character lookahead window `line[end:end+10]` (line 252). -/
def sapAfter (line : Str) (endp : Nat) : Str :=
  if endp < line.length then pySlice line endp (endp + 10) else []

/-- Lines 255-272: skip when the occurrence sits in an HTML tag name — after
a `<` with no later `>`, with no whitespace between the `<` (and optional
`/`) and the occurrence. -/
def tagNameSkip (line : Str) (start : Nat) : Bool :=
  let beforeFull := line.take start
  let lastOpenTag := pyRFind beforeFull (str ("<"))
  let lastCloseTag := pyRFind beforeFull (str (">"))
  if lastOpenTag ≠ -1 && (lastCloseTag = -1 || lastCloseTag < lastOpenTag) then
    let s0 := beforeFull.drop (lastOpenTag + 1).toNat
    let sectionAfterTag := if s0.head? = some '/' then s0.tail else s0
    !(sectionAfterTag.contains ' ' || sectionAfterTag.contains '\t' ||
      sectionAfterTag.contains '\n')
  else false

/-- Lines 279-282: skip when followed (modulo spaces) by `.set(`. -/
def dotSetSkip (line : Str) (endp : Nat) : Bool :=
  (str (".set(")).isPrefixOf ((sapAfter line endp).dropWhile pyIsSpace)

/-- Lines 284-324: skip when inside a single-brace object literal (a brace
belonging to a `\x7b\x7b` interpolation pair is not an object brace) and the
occurrence is a key (followed by `:`) or a shorthand key (followed by `,` or
`\x7d` with no `:` since the brace). -/
def objectKeySkip (line : Str) (start endp : Nat) : Bool :=
  let beforeFull := line.take start
  let lastOpenBrace0 := pyRFind beforeFull (str ("\x7b"))
  let lastCloseBrace := pyRFind beforeFull (str ("\x7d"))
  let isDoubleOpen : Bool :=
    lastOpenBrace0 ≠ -1 &&
    ((lastOpenBrace0 + 1 < (beforeFull.length : Int) &&
        charAt beforeFull (lastOpenBrace0 + 1).toNat = some '\x7b') ||
     (lastOpenBrace0 > 0 &&
        charAt beforeFull (lastOpenBrace0 - 1).toNat = some '\x7b'))
  let lastOpenBrace := if isDoubleOpen then (-1 : Int) else lastOpenBrace0
  let afterStrippedShort := (sapAfter line endp).dropWhile pyIsSpace
  if lastOpenBrace ≠ -1 && (lastCloseBrace = -1 || lastCloseBrace < lastOpenBrace) then
    if [':'].isPrefixOf afterStrippedShort then true
    else if [','].isPrefixOf afterStrippedShort || ['\x7d'].isPrefixOf afterStrippedShort then
      !((beforeFull.drop lastOpenBrace.toNat).contains ':')
    else false
  else false

/-- Lines 326-344: skip when inside a property-binding bracket — a `[` with
no later `]` before the occurrence, and a `]` somewhere after it. -/
def bracketNameSkip (line : Str) (start endp : Nat) : Bool :=
  let beforeFull := line.take start
  let lastOpenBracket := pyRFind beforeFull (str ("["))
  let lastCloseBracket := pyRFind beforeFull (str ("]"))
  decide (lastOpenBracket ≠ -1) &&
  (decide (lastCloseBracket = -1) || decide (lastCloseBracket < lastOpenBracket)) &&
  decide (pyFind (line.drop endp) (str ("]")) ≠ -1)

/-- Lines 346-351: skip when followed (modulo spaces) by a plain `=` (not
`==`/`===`). -/
def assignSkip (line : Str) (endp : Nat) : Bool :=
  let afterStripped := (sapAfter line endp).dropWhile pyIsSpace
  ['='].isPrefixOf afterStripped && !((str ("==")).isPrefixOf afterStripped) &&
  !((str ("===")).isPrefixOf afterStripped)

/-- Lines 353-366: skip when the rstripped lookback window ends in the given
character (`@`, `#` or `.`). -/
def precededBySkip (line : Str) (start : Nat) (c : Char) : Bool :=
  (rstripWs (sapBefore line start)).getLast? = some c

/-- Lines 368-371: skip when `@` occurs in the 10-character lookback window
and `Input` occurs in `line[max(0, start-20):end]`. -/
def atInputSkip (line : Str) (start endp : Nat) : Bool :=
  (sapBefore line start).contains '@' &&
  containsStr (pySlice line (start - 20) endp) (str ("Input"))

/-- `_should_add_parentheses` (lines 233-376): the source's sequence of
early `return False` checks, one guard per `if`; the object-literal block's
internal fall-throughs (`pass`) are folded into `objectKeySkip`.
`property_name` is used by the source only in debug prints. -/
def shouldAddParentheses (line : Str) (start endp : Nat) (property_name : Str) : Bool :=
  let _ := property_name
  if isInsideString line start then false
  else if isInsideComment line start then false
  else if tagNameSkip line start then false
  else if ['('].isPrefixOf (sapAfter line endp) then false
  else if dotSetSkip line endp then false
  else if objectKeySkip line start endp then false
  else if bracketNameSkip line start endp then false
  else if assignSkip line endp then false
  else if precededBySkip line start '@' then false
  else if precededBySkip line start '#' then false
  else if precededBySkip line start '.' then false
  else if atInputSkip line start endp then false
  else true

/-- Occurrences of regex `\b<prop>\b` in `content` (`prop` is a `\w+` capture
from the detectors, so `\b` means: not preceded and not followed by a word
character). -/
def findWordOccurrences (content prop : Str) : List Nat :=
  (List.range (content.length + 1)).filter (fun i =>
    prop.isPrefixOf (content.drop i) &&
    (decide (i = 0) || !(charAt content (i - 1)).any isWordChar) &&
    !(charAt content (i + prop.length)).any isWordChar)

/-- `_add_signal_calls_to_property` (lines 165-231): matches found on the
input, processed in reverse order against the evolving result. -/
def addSignalCallsToProperty (html prop : Str) : Str :=
  (findWordOccurrences html prop).reverse.foldl
    (fun result start =>
      let endp := start + prop.length
      let lineStart := (pyRFind (result.take start) (str ("\n")) + 1).toNat
      let lineEndI := pyFindFrom result (str ("\n")) endp
      let lineEnd := if lineEndI = -1 then result.length else lineEndI.toNat
      let line := pySlice result lineStart lineEnd
      let posInLine := start - lineStart
      let endInLine := endp - lineStart
      if charAt result endp = some '(' then result
      else if shouldAddParentheses line posInLine endInLine prop then
        result.take endp ++ str ("()") ++ result.drop endp
      else result)
    html

/-- One attempted match of `\[\(ngModel\)\]=<q><prop>(?:\(\))?<q>` at the head
of `t`; returns the length of the match. -/
def matchTwoWayAt (q : Char) (prop t : Str) : Option Nat :=
  let p1 := str ("[(ngModel)]=") ++ [q] ++ prop
  if p1.isPrefixOf t then
    let rest := t.drop p1.length
    if (str ("()") ++ [q]).isPrefixOf rest then some (p1.length + 3)
    else if [q].isPrefixOf rest then some (p1.length + 1)
    else none
  else none

/-- Replacement text of `replace_two_way` (always double-quoted). -/
def twoWayReplacement (prop : Str) : Str :=
  str ("[ngModel]=\x22") ++ prop ++ str ("\x22 (ngModelChange)=\x22") ++ prop ++
  str (".set($event)\x22")

/-- `re.sub` for the two-way-binding pattern: scans left-to-right, replacing
non-overlapping matches and copying all other characters. -/
def reSubTwoWay (q : Char) (prop : Str) (s : Str) : Str :=
  ((List.range s.length).foldl
    (fun (acc : Str × Nat) i =>
      if i < acc.2 then acc
      else
        match matchTwoWayAt q prop (s.drop i) with
        | some n => (acc.1 ++ twoWayReplacement prop, i + n)
        | none => (acc.1 ++ [s.getD i ' '], i + 1))
    ([], 0)).1

/-- `_convert_two_way_bindings` (lines 75-113): double-quoted pattern first,
then single-quoted; input signals are skipped. -/
def convertTwoWayBindings (html : Str) (signalProperties inputSignals : List Str) : Str :=
  signalProperties.foldl
    (fun result prop =>
      if inputSignals.contains prop then result
      else reSubTwoWay '\x27' prop (reSubTwoWay '\x22' prop result))
    html

/-- One attempted match of `(\w+)\s*=\s*<marker>` whose `\w+` run starts at
`i`.  Regex `finditer` over `(\w+)\s*=\s*…` yields exactly the maximal word
runs followed by `\s*=\s*<marker>`: a match attempt starting inside a word
run succeeds iff the attempt at the run's start does (the continuation after
the run is the same), matches contain a single `=` and hence never overlap a
later match start, so scanning run starts is equivalent. -/
def wordRunMatchAt (markers : List Str) (ts : Str) (i : Nat) : Option Str :=
  let t := ts.drop i
  let run := t.takeWhile isWordChar
  if run = [] then none
  else if ((ts.take i).getLast?).any isWordChar then none
  else
    match (t.dropWhile isWordChar).dropWhile pyIsSpace with
    | '=' :: r2 =>
      if markers.any (fun m => m.isPrefixOf (r2.dropWhile pyIsSpace)) then some run
      else none
    | _ => none

/-- Shared shape of `_detect_signal_properties` / `_detect_computed_properties`
/ `_detect_input_signals`: the Python `set` is modelled as a duplicate-free
list in first-occurrence order. -/
def detectFactoryProps (markers : List Str) (ts : Str) : List Str :=
  (List.range ts.length).foldl
    (fun acc i =>
      match wordRunMatchAt markers ts i with
      | some n => if acc.contains n then acc else acc ++ [n]
      | none => acc)
    []

/-- `_detect_signal_properties` (regex `(\w+)\s*=\s*signal<`). -/
def detectSignalProperties (ts : Str) : List Str :=
  detectFactoryProps [str ("signal<")] ts

/-- `_detect_input_signals` (regex `(\w+)\s*=\s*input(?:\.required)?<`). -/
def detectInputSignals (ts : Str) : List Str :=
  detectFactoryProps [str ("input<"), str ("input.required<")] ts

/-- `_detect_computed_properties` (regex `(\w+)\s*=\s*computed\(`). -/
def detectComputedProperties (ts : Str) : List Str :=
  detectFactoryProps [str ("computed(")] ts

/-- Python set union `a | b` modelled on duplicate-free lists. -/
def setUnion (a b : List Str) : List Str :=
  b.foldl (fun acc n => if acc.contains n then acc else acc ++ [n]) a

/-- `_get_ts_content` (lines 115-126). -/
def getTsContent (cfg : MigrationConfig) : Str :=
  if (str (".html")).isSuffixOf cfg.pathName then
    assocGet cfg.files (cfg.pathName.take (cfg.pathName.length - 5) ++ str (".ts"))
  else []

/-- `migrate_html_to_signals` (lines 27-73). -/
def migrateHtmlToSignals (cfg : MigrationConfig) (htmlContent : Str) : Str :=
  if (pyStrip htmlContent).isEmpty then htmlContent
  else
    let tsContent := getTsContent cfg
    if tsContent.isEmpty then htmlContent
    else
      let signalProperties := detectSignalProperties tsContent
      let computedProperties := detectComputedProperties tsContent
      let inputSignals := detectInputSignals tsContent
      let allSignalProperties :=
        setUnion (setUnion signalProperties computedProperties) inputSignals
      if allSignalProperties.isEmpty then htmlContent
      else
        let result := convertTwoWayBindings htmlContent allSignalProperties inputSignals
        allSignalProperties.foldl (fun r p => addSignalCallsToProperty r p) result

/-- `AngularHtmlSignalMigration.process` (lines 21-25). -/
def AngularHtmlSignalMigration.process (cfg : MigrationConfig) (content : Str) : Content :=
  let newContent := migrateHtmlToSignals cfg content
  ⟨newContent, decide (newContent ≠ content)⟩

/-! ### angular_empty_import_fix.py -/

/-- `prev_char` of the matcher loop: `content[i-1]` for `i > 0`, else the
empty marker (`None`), which compares unequal to every character. -/
def fmcbPrev (content : Str) (i : Nat) : Option Char :=
  if 0 < i then some (content.getD (i - 1) ' ') else none

/-- The `in_comment_line` update of the matcher loop (lines 144-146): a line
comment ends at `\n` or `\r`. -/
def fmcbIcl (inCommentLine : Bool) (char : Char) : Bool :=
  if inCommentLine && (char = '\n' || char = '\r') then false else inCommentLine

/-- The string-state update of the matcher loop (lines 159-166): quotes
toggle `(in_string, string_char)` unless escaped by a backslash. -/
def fmcbStr (inString : Bool) (stringChar : Option Char) (char : Char)
    (prev : Option Char) : Bool × Option Char :=
  if (char = '\x22' || char = '\x27' || char = '`') && prev ≠ some '\x5c' then
    if !inString then (true, some char)
    else if some char = stringChar then (false, none)
    else (inString, stringChar)
  else (inString, stringChar)

/-- The `while` loop of `_find_matching_closing_brace` (lines 110-179),
returning the result together with the
`(in_string, in_comment_line, in_comment_block)` flags at the point the scan
stopped.  `-1` is returned when the end of the document is reached before the
depth counter returns to zero.  `fuel` only bounds the recursion: every
iteration advances `i` by at least one, so the wrapper's `length + 1` fuel
is never exhausted before the loop's own exit conditions fire. -/
def fmcbGo (content : Str) :
    (fuel i : Nat) → (braceCount : Int) → (inString : Bool) →
    (stringChar : Option Char) → (inCommentLine inCommentBlock : Bool) →
    Int × Bool × Bool × Bool
  | 0, _, _, inString, _, inCommentLine, inCommentBlock =>
    (-1, inString, inCommentLine, inCommentBlock)
  | fuel + 1, i, braceCount, inString, stringChar, inCommentLine, inCommentBlock =>
    if i < content.length ∧ 0 < braceCount then
      -- line-comment opener `//` (lines 134-138)
      if inString = false ∧ inCommentBlock = false ∧ content.getD i ' ' = '/' ∧
          i + 1 < content.length ∧ content.getD (i + 1) ' ' = '/' then
        fmcbGo content fuel (i + 2) braceCount inString stringChar true inCommentBlock
      -- block-comment opener `/*` (lines 139-142)
      else if inString = false ∧ inCommentBlock = false ∧ content.getD i ' ' = '/' ∧
          i + 1 < content.length ∧ content.getD (i + 1) ' ' = '*' then
        fmcbGo content fuel (i + 2) braceCount inString stringChar inCommentLine true
      -- block-comment closer `*/` (lines 148-152)
      else if inCommentBlock = true ∧ content.getD i ' ' = '/' ∧
          fmcbPrev content i = some '*' then
        fmcbGo content fuel (i + 1) braceCount inString stringChar
          (fmcbIcl inCommentLine (content.getD i ' ')) false
      -- still inside a comment (lines 154-157)
      else if fmcbIcl inCommentLine (content.getD i ' ') || inCommentBlock then
        fmcbGo content fuel (i + 1) braceCount inString stringChar
          (fmcbIcl inCommentLine (content.getD i ' ')) inCommentBlock
      else
        -- brace counting outside strings and comments (lines 168-175)
        if (fmcbStr inString stringChar (content.getD i ' ') (fmcbPrev content i)).1 = false then
          if content.getD i ' ' = '\x7b' then
            fmcbGo content fuel (i + 1) (braceCount + 1)
              (fmcbStr inString stringChar (content.getD i ' ') (fmcbPrev content i)).1
              (fmcbStr inString stringChar (content.getD i ' ') (fmcbPrev content i)).2
              (fmcbIcl inCommentLine (content.getD i ' ')) inCommentBlock
          else if content.getD i ' ' = '\x7d' then
            if braceCount - 1 = 0 then
              ((i : Int),
               (fmcbStr inString stringChar (content.getD i ' ') (fmcbPrev content i)).1,
               fmcbIcl inCommentLine (content.getD i ' '), inCommentBlock)
            else
              fmcbGo content fuel (i + 1) (braceCount - 1)
                (fmcbStr inString stringChar (content.getD i ' ') (fmcbPrev content i)).1
                (fmcbStr inString stringChar (content.getD i ' ') (fmcbPrev content i)).2
                (fmcbIcl inCommentLine (content.getD i ' ')) inCommentBlock
          else
            fmcbGo content fuel (i + 1) braceCount
              (fmcbStr inString stringChar (content.getD i ' ') (fmcbPrev content i)).1
              (fmcbStr inString stringChar (content.getD i ' ') (fmcbPrev content i)).2
              (fmcbIcl inCommentLine (content.getD i ' ')) inCommentBlock
        else
          fmcbGo content fuel (i + 1) braceCount
            (fmcbStr inString stringChar (content.getD i ' ') (fmcbPrev content i)).1
            (fmcbStr inString stringChar (content.getD i ' ') (fmcbPrev content i)).2
            (fmcbIcl inCommentLine (content.getD i ' ')) inCommentBlock
    else (-1, inString, inCommentLine, inCommentBlock)

/-- `_find_matching_closing_brace` proper: starts right after the opening
brace with depth 1, outside strings and comments. -/
def findMatchingClosingBrace (content : Str) (startPos : Nat) : Int :=
  (fmcbGo content (content.length + 1) startPos 1 false none false false).1

/-- One attempted match of `@Component\s*\(\s*\{` at the head of `t`,
returning the length of the match. -/
def matchComponentAt (t : Str) : Option Nat :=
  if (str ("@Component")).isPrefixOf t then
    let r1 := t.drop 10
    let ws1 := r1.takeWhile pyIsSpace
    match r1.drop ws1.length with
    | '(' :: r2 =>
      let ws2 := r2.takeWhile pyIsSpace
      match r2.drop ws2.length with
      | '\x7b' :: _ => some (10 + ws1.length + 1 + ws2.length + 1)
      | _ => none
    | _ => none
  else none

/-- `match.end()` positions of `finditer` for the `@Component\s*\(\s*\{`
pattern: left-to-right, non-overlapping. -/
def componentMatchEnds (content : Str) : List Nat :=
  ((List.range content.length).foldl
    (fun (acc : List Nat × Nat) i =>
      if acc.2 ≤ i then
        match matchComponentAt (content.drop i) with
        | some n => (acc.1 ++ [i + n], i + n)
        | none => acc
      else acc)
    ([], 0)).1

/-- One match of `\bimports\s*:` starting at `pos` (`imports` begins with a
word character, so `\b` just requires the previous character to not be one). -/
def matchImportsAt (config : Str) (pos : Nat) : Bool :=
  (str ("imports")).isPrefixOf (config.drop pos) &&
  (decide (pos = 0) || !(charAt config (pos - 1)).any isWordChar) &&
  ((config.drop (pos + 7)).dropWhile pyIsSpace).head? = some ':'

/-- `_has_imports_property` (lines 181-216): some `\bimports\s*:` match that
is in neither a `//` line comment nor an unterminated `/*` block. -/
def hasImportsProperty (configContent : Str) : Bool :=
  (List.range configContent.length).any (fun pos =>
    matchImportsAt configContent pos &&
    (let lineStart := (pyRFind (configContent.take pos) (str ("\n")) + 1).toNat
     !containsStr (pySlice configContent lineStart pos) (str ("//"))) &&
    (let lastBlockStart := pyRFind (configContent.take pos) (str ("/*"))
     let lastBlockEnd := pyRFind (configContent.take pos) (str ("*/"))
     !(lastBlockStart ≠ -1 && (lastBlockEnd = -1 || lastBlockEnd < lastBlockStart))))

/-- `_find_imports_insert_position` (lines 218-232). -/
def findImportsInsertPosition (_content : Str) (startPos : Nat) : Nat := startPos

/-- `_get_indentation` (lines 234-268). -/
def getIndentation (content : Str) (startPos : Nat) : Str :=
  let nl := pyFindFrom content (str ("\n")) startPos
  if nl = -1 then str ("    ")
  else
    let indentation := (content.drop (nl.toNat + 1)).takeWhile (fun c => c = ' ' || c = '\t')
    if indentation.isEmpty then str ("    ") else indentation

/-- `add_empty_imports` (lines 43-108): matches found on the input, processed
in reverse order against the evolving result; brace matching, the imports
check and the indentation are all computed on the original content. -/
def addEmptyImports (content : Str) : Str :=
  if (pyStrip content).isEmpty then content
  else
    (componentMatchEnds content).reverse.foldl
      (fun result startPos =>
        let closingBracePos := findMatchingClosingBrace content startPos
        if closingBracePos = -1 then result
        else
          let configContent := pySlice content startPos closingBracePos.toNat
          if hasImportsProperty configContent then result
          else
            let insertPos := findImportsInsertPosition content startPos
            let importsLine := str ("\n") ++ getIndentation content startPos ++ str ("imports: [],")
            result.take insertPos ++ importsLine ++ result.drop insertPos)
      content

/-- `AngularEmptyImportFix.process` (lines 27-41); `globals_config` is unused
by the source and modelled as `Unit`. -/
def AngularEmptyImportFix.process (_cfg : MigrationConfig) (_globalsConfig : Unit)
    (content : Str) : Content :=
  let newContent := addEmptyImports content
  ⟨newContent, decide (newContent ≠ content)⟩

/-! ### angular_to_signal_migration.py -/

/-- `migrate_angular_to_signal_migration` (lines 27-62).  Only its
whitespace-only early return (lines 28-29) is needed by the claims; the rest
of the migration (lines 31-62) is abstracted as an arbitrary function `rest`,
so every theorem about this definition holds for the real remainder as well. -/
def migrateAngularToSignalMigration (rest : MigrationConfig → Str → Str)
    (cfg : MigrationConfig) (content : Str) : Str :=
  if (pyStrip content).isEmpty then content else rest cfg content

/-- `AngularToSignalMigration.process` (lines 21-24), parameterized by the
same `rest`. -/
def AngularToSignalMigration.process (rest : MigrationConfig → Str → Str)
    (cfg : MigrationConfig) (content : Str) : Content :=
  let newContent := migrateAngularToSignalMigration rest cfg content
  ⟨newContent, decide (newContent ≠ content)⟩

/-! ### Claim-specific documents and configurations -/

/-- Sibling TypeScript content declaring `rows` as a writable signal. -/
def tsRowsSignal : Str := str ("rows = signal<number>(5);")

/-- Config pairing `test.html` with a sibling declaring `rows = signal<…>`. -/
def cfgRows : MigrationConfig :=
  ⟨str ("test.html"), [(str ("test.ts"), tsRowsSignal)]⟩

/-- Sibling TypeScript content declaring `activeField` as a read-only input
signal. -/
def tsActiveField : Str := str ("activeField = input<any>();")

/-- Config pairing `test.html` with the `activeField` sibling. -/
def cfgActiveField : MigrationConfig :=
  ⟨str ("test.html"), [(str ("test.ts"), tsActiveField)]⟩

/-- Sibling TypeScript content declaring `rows` as a signal without the
explicit generic form (`signal(0)` rather than `signal<…>`). -/
def tsRowsNoType : Str := str ("rows = signal(0);")

/-- Config pairing `test.html` with the no-type-argument sibling. -/
def cfgRowsNoType : MigrationConfig :=
  ⟨str ("test.html"), [(str ("test.ts"), tsRowsNoType)]⟩

def docInterpIn : Str := str ("<h2>\x7b\x7brows\x7d\x7d</h2>")

def docInterpOut : Str := str ("<h2>\x7b\x7brows()\x7d\x7d</h2>")

def docTwoWayIn : Str := str ("<input [(ngModel)]=\x22rows\x22>")

def docTwoWayOut : Str :=
  str ("<input [ngModel]=\x22rows()\x22 (ngModelChange)=\x22rows.set($event)\x22>")

def docBindingIn : Str := str ("<component [activeField]=\x22activeField\x22></component>")

def docBindingOut : Str := str ("<component [activeField]=\x22activeField()\x22></component>")

/-- A document on which `process` is not idempotent: the first pass inserts
`()` after the first `rows`, which pushes the `Input` literal out of the
20-character lookback window that had suppressed the second `rows` in the
`@Input` guard, so a second pass edits again. -/
def docNonIdem : Str := str ("Input rows @x       rows")

def docNonIdem1 : Str := str ("Input rows() @x       rows")

def docNonIdem2 : Str := str ("Input rows() @x       rows()")

/-- A document whose second line lies inside an HTML comment opened by
`<!--` on the first line. -/
def docMultilineComment : Str := str ("<!--\n\x7b\x7brows\x7d\x7d\n-->")

def docMultilineCommentOut : Str := str ("<!--\n\x7b\x7brows()\x7d\x7d\n-->")

/-! ### Supporting lemmas -/

theorem setUnion_ne_nil {a : List Str} (b : List Str) (h : a ≠ []) : setUnion a b ≠ [] := by
  induction b generalizing a with
  | nil => exact h
  | cons x b ih =>
    show setUnion (if a.contains x then a else a ++ [x]) b ≠ []
    by_cases hc : a.contains x
    · simp only [hc, if_true]; exact ih h
    · simp only [hc, if_false]; exact ih (by simp)

/-- When the detector outcomes on the sibling content are known and give at
least one property, `migrate_html_to_signals` is the two-way-binding
conversion followed by the per-property call-insertion fold. -/
theorem migrateHtmlToSignals_of_detect (cfg : MigrationConfig) (doc : Str)
    (sp cp ip : List Str)
    (hne : (pyStrip doc).isEmpty = false)
    (h1 : detectSignalProperties (getTsContent cfg) = sp)
    (h2 : detectComputedProperties (getTsContent cfg) = cp)
    (h3 : detectInputSignals (getTsContent cfg) = ip)
    (hall : setUnion (setUnion sp cp) ip ≠ []) :
    migrateHtmlToSignals cfg doc =
      (setUnion (setUnion sp cp) ip).foldl (fun r p => addSignalCallsToProperty r p)
        (convertTwoWayBindings doc (setUnion (setUnion sp cp) ip) ip) := by
  have hts : (getTsContent cfg).isEmpty = false := by
    cases hg : getTsContent cfg with
    | nil => exact absurd (by rw [← h1, ← h2, ← h3, hg]; rfl) hall
    | cons a l => rfl
  have hallb : (setUnion (setUnion sp cp) ip).isEmpty = false := by
    cases hu : setUnion (setUnion sp cp) ip with
    | nil => exact absurd hu hall
    | cons a l => rfl
  unfold migrateHtmlToSignals
  rw [hne]
  simp only [Bool.false_eq_true, if_false]
  rw [hts]
  simp only [Bool.false_eq_true, if_false]
  rw [h1, h2, h3, hallb]
  simp only [Bool.false_eq_true, if_false]

/-! ### C1: idempotence of the HTML rewrite -/

/-- C1 (counterexample): the claim "running the full transformation a second
time produces no further change" is false.  With `rows` a writable signal,
processing `"Input rows @x       rows"` yields `"Input rows() @x       rows"`
(the second `rows` is suppressed by the `@Input` lookback guard), and a
second run edits again, yielding `"Input rows() @x       rows()"` with
`changed = true`. -/
theorem c1_not_idempotent :
    AngularHtmlSignalMigration.process cfgRows docNonIdem = ⟨docNonIdem1, true⟩ ∧
    AngularHtmlSignalMigration.process cfgRows docNonIdem1 = ⟨docNonIdem2, true⟩ ∧
    docNonIdem2 ≠ docNonIdem1 := by decide

/-- C1 (amended): re-running `process` produces no further change on the
spec's concrete scenario documents (the interpolation and two-way-binding
examples); idempotence does not hold for arbitrary documents. -/
theorem c1_idempotent_on_scenarios :
    (AngularHtmlSignalMigration.process cfgRows docInterpIn).content = docInterpOut ∧
    AngularHtmlSignalMigration.process cfgRows docInterpOut = ⟨docInterpOut, false⟩ ∧
    (AngularHtmlSignalMigration.process cfgRows docTwoWayIn).content = docTwoWayOut ∧
    AngularHtmlSignalMigration.process cfgRows docTwoWayOut = ⟨docTwoWayOut, false⟩ := by
  decide

/-! ### C2: string/comment immunity -/

/-- C2 (amended): whenever the line-local classifier reports a position
inside a string or inside a comment, `_should_add_parentheses` returns
`false` for that occurrence.  The multi-line part of the claim is false — see
the counterexample. -/
theorem c2_classifier_immunity (line : Str) (start endp : Nat) (prop : Str)
    (h : isInsideString line start = true ∨ isInsideComment line start = true) :
    shouldAddParentheses line start endp prop = false := by
  unfold shouldAddParentheses
  rcases h with h | h
  · rw [if_pos h]
  · by_cases h1 : isInsideString line start = true
    · rw [if_pos h1]
    · rw [if_neg h1, if_pos h]

theorem c2_classifier_immunity_witness :
    shouldAddParentheses (str ("<!-- rows -->")) 5 9 (str ("rows")) = false :=
  c2_classifier_immunity (str ("<!-- rows -->")) 5 9 (str ("rows"))
    (Or.inr (by decide))

/-- C2 (counterexample): an edit can cover a position inside a comment opened
by `<!--` on an earlier physical line — the comment check is line-local, so
`\x7b\x7brows\x7d\x7d` on the line after `<!--` is rewritten. -/
theorem c2_multiline_comment_edited :
    AngularHtmlSignalMigration.process cfgRows docMultilineComment =
      ⟨docMultilineCommentOut, true⟩ ∧
    pyRFind (docMultilineComment.take 7) (str ("<!--")) = 0 ∧
    pyRFind (docMultilineComment.take 7) (str ("-->")) = -1 := by decide

/-! ### C3: interpolation rewrite -/

/-- C3: for every config whose sibling declares `rows` as a writable signal
(and nothing else), `process` on `"<h2>\x7b\x7brows\x7d\x7d</h2>"` yields
exactly `"<h2>\x7b\x7brows()\x7d\x7d</h2>"` with `changed = true`: the
`\x7b\x7b` is recognized as interpolation, not an object-literal brace. -/
theorem c3_interpolation_rewrite (cfg : MigrationConfig)
    (h1 : detectSignalProperties (getTsContent cfg) = [str ("rows")])
    (h2 : detectComputedProperties (getTsContent cfg) = [])
    (h3 : detectInputSignals (getTsContent cfg) = []) :
    AngularHtmlSignalMigration.process cfg docInterpIn = ⟨docInterpOut, true⟩ := by
  simp only [AngularHtmlSignalMigration.process]
  rw [migrateHtmlToSignals_of_detect cfg docInterpIn _ _ _ (by decide) h1 h2 h3 (by decide)]
  decide

theorem c3_interpolation_rewrite_witness :
    AngularHtmlSignalMigration.process cfgRows docInterpIn = ⟨docInterpOut, true⟩ :=
  c3_interpolation_rewrite cfgRows (by decide) (by decide) (by decide)

/-! ### C4: two-way-binding decomposition -/

/-- C4: for every config whose sibling declares `rows` as a writable,
non-input signal (and nothing else), `process` decomposes
`[(ngModel)]=\x22rows\x22` into the one-way binding (with `()` added) plus the
`(ngModelChange)` setter binding, whose `rows` (followed by `.set(`) stays
without parentheses. -/
theorem c4_two_way_binding (cfg : MigrationConfig)
    (h1 : detectSignalProperties (getTsContent cfg) = [str ("rows")])
    (h2 : detectComputedProperties (getTsContent cfg) = [])
    (h3 : detectInputSignals (getTsContent cfg) = []) :
    AngularHtmlSignalMigration.process cfg docTwoWayIn = ⟨docTwoWayOut, true⟩ := by
  simp only [AngularHtmlSignalMigration.process]
  rw [migrateHtmlToSignals_of_detect cfg docTwoWayIn _ _ _ (by decide) h1 h2 h3 (by decide)]
  decide

theorem c4_two_way_binding_witness :
    AngularHtmlSignalMigration.process cfgRows docTwoWayIn = ⟨docTwoWayOut, true⟩ :=
  c4_two_way_binding cfgRows (by decide) (by decide) (by decide)

/-! ### C5: binding-name immunity -/

/-- When the property-binding-bracket guard fires, every earlier guard either
falls through or already returns `false`, so the occurrence is never
rewritten. -/
theorem shouldAdd_false_of_bracketNameSkip (line : Str) (start endp : Nat) (prop : Str)
    (hb : bracketNameSkip line start endp = true) :
    shouldAddParentheses line start endp prop = false := by
  unfold shouldAddParentheses
  by_cases a1 : isInsideString line start = true
  · rw [if_pos a1]
  · rw [if_neg a1]
    by_cases a2 : isInsideComment line start = true
    · rw [if_pos a2]
    · rw [if_neg a2]
      by_cases a3 : tagNameSkip line start = true
      · rw [if_pos a3]
      · rw [if_neg a3]
        by_cases a4 : ['('].isPrefixOf (sapAfter line endp) = true
        · rw [if_pos a4]
        · rw [if_neg a4]
          by_cases a5 : dotSetSkip line endp = true
          · rw [if_pos a5]
          · rw [if_neg a5]
            by_cases a6 : objectKeySkip line start endp = true
            · rw [if_pos a6]
            · rw [if_neg a6]
              rw [if_pos hb]

/-- C5: an identifier occurrence between an unclosed `[` before it and a `]`
after it on the same line is never rewritten, and on the concrete
`activeField` document (read-only reactive input) only the value occurrence
receives parentheses. -/
theorem c5_binding_name_immunity :
    (∀ (line : Str) (start endp : Nat) (prop : Str),
        pyRFind (line.take start) (str ("[")) ≠ -1 →
        (pyRFind (line.take start) (str ("]")) = -1 ∨
          pyRFind (line.take start) (str ("]")) < pyRFind (line.take start) (str ("["))) →
        pyFind (line.drop endp) (str ("]")) ≠ -1 →
        shouldAddParentheses line start endp prop = false) ∧
    (∀ cfg : MigrationConfig,
        detectSignalProperties (getTsContent cfg) = [] →
        detectComputedProperties (getTsContent cfg) = [] →
        detectInputSignals (getTsContent cfg) = [str ("activeField")] →
        AngularHtmlSignalMigration.process cfg docBindingIn = ⟨docBindingOut, true⟩) := by
  constructor
  · intro line start endp prop h1 h2 h3
    apply shouldAdd_false_of_bracketNameSkip
    unfold bracketNameSkip
    simp only [Bool.and_eq_true, Bool.or_eq_true, decide_eq_true_eq]
    exact ⟨⟨h1, by rcases h2 with h | h; exacts [Or.inl h, Or.inr h]⟩, h3⟩
  · intro cfg h1 h2 h3
    simp only [AngularHtmlSignalMigration.process]
    rw [migrateHtmlToSignals_of_detect cfg docBindingIn _ _ _ (by decide) h1 h2 h3 (by decide)]
    decide

theorem c5_binding_name_immunity_witness :
    shouldAddParentheses docBindingIn 12 23 (str ("activeField")) = false ∧
    AngularHtmlSignalMigration.process cfgActiveField docBindingIn = ⟨docBindingOut, true⟩ :=
  ⟨c5_binding_name_immunity.1 docBindingIn 12 23 (str ("activeField"))
      (by decide) (by decide) (by decide),
   c5_binding_name_immunity.2 cfgActiveField (by decide) (by decide) (by decide)⟩

/-! ### C6: matcher safety -/

/-- Any outcome of the matcher loop is either `-1` or the position of a
`\x7d` reached with the scan outside strings and comments (all three state
flags false at the return point). -/
theorem fmcbGo_closing (content : Str) :
    ∀ (fuel i : Nat) (bc : Int) (instr : Bool) (schar : Option Char) (icl icb : Bool),
      (fmcbGo content fuel i bc instr schar icl icb).1 = -1 ∨
      ∃ j : Nat, fmcbGo content fuel i bc instr schar icl icb = ((j : Int), false, false, false) ∧
        i ≤ j ∧ j < content.length ∧ content.getD j ' ' = '\x7d' := by
  intro fuel
  induction fuel with
  | zero => intro i bc instr schar icl icb; left; rfl
  | succ fuel ih =>
    intro i bc instr schar icl icb
    have step : ∀ (i' : Nat) (bc' : Int) (a : Bool) (b : Option Char) (c d : Bool), i ≤ i' →
        ((fmcbGo content fuel i' bc' a b c d).1 = -1 ∨
          ∃ j : Nat, fmcbGo content fuel i' bc' a b c d = ((j : Int), false, false, false) ∧
            i ≤ j ∧ j < content.length ∧ content.getD j ' ' = '\x7d') := by
      intro i' bc' a b c d hi
      rcases ih i' bc' a b c d with h | ⟨j, hj, hij, hjl, hc⟩
      · left; exact h
      · right; exact ⟨j, hj, le_trans hi hij, hjl, hc⟩
    rw [fmcbGo]
    by_cases hg : i < content.length ∧ 0 < bc
    · rw [if_pos hg]
      split
      · exact step _ _ _ _ _ _ (by omega)
      · split
        · exact step _ _ _ _ _ _ (by omega)
        · split
          · exact step _ _ _ _ _ _ (by omega)
          · split
            · exact step _ _ _ _ _ _ (by omega)
            · rename_i h4
              split
              · rename_i hstr
                split
                · exact step _ _ _ _ _ _ (by omega)
                · split
                  · rename_i hbrace
                    split
                    · right
                      refine ⟨i, ?_, le_refl i, hg.1, hbrace⟩
                      have h4' : fmcbIcl icl (content.getD i ' ') = false ∧ icb = false := by
                        simpa using h4
                      rw [hstr, h4'.1, h4'.2]
                    · exact step _ _ _ _ _ _ (by omega)
                  · exact step _ _ _ _ _ _ (by omega)
              · exact step _ _ _ _ _ _ (by omega)
    · rw [if_neg hg]; left; rfl

/-- The spec's malformed decorator head without a closing brace. -/
def docUnclosed : Str := str ("@Component(\x7b key: \x27value\x27")

/-- C6: the matcher is total and returns `-1` or the position of a closing
brace reached outside strings and comments (by its own state tracking); on
the spec's unclosed-decorator input it returns `-1`, the caller skips the
`@Component` occurrence, and the file is reported unchanged. -/
theorem c6_matcher_safety :
    (∀ (content : Str) (startPos : Nat),
        findMatchingClosingBrace content startPos = -1 ∨
        ∃ j : Nat, findMatchingClosingBrace content startPos = (j : Int) ∧
          startPos ≤ j ∧ j < content.length ∧ content.getD j ' ' = '\x7d' ∧
          fmcbGo content (content.length + 1) startPos 1 false none false false =
            ((j : Int), false, false, false)) ∧
    findMatchingClosingBrace docUnclosed 12 = -1 ∧
    addEmptyImports docUnclosed = docUnclosed ∧
    AngularEmptyImportFix.process cfgRows () docUnclosed = ⟨docUnclosed, false⟩ := by
  refine ⟨?_, by decide, by decide, by decide⟩
  intro content startPos
  rcases fmcbGo_closing content (content.length + 1) startPos 1 false none false false with
    h | ⟨j, hj, hij, hjl, hc⟩
  · left; exact h
  · right
    exact ⟨j, by unfold findMatchingClosingBrace; rw [hj], hij, hjl, hc, hj⟩

/-! ### C7: resolver miss is fail-soft -/

/-- C7: when the sibling map has no entry named after the primary path's base
name with the `.ts` extension, or the primary path does not end in `.html`,
`process` returns the input unchanged with `changed = false`. -/
theorem c7_resolver_miss (cfg : MigrationConfig) (content : Str)
    (h : cfg.files.find?
        (fun kv => kv.1 == cfg.pathName.take (cfg.pathName.length - 5) ++ str (".ts")) = none ∨
      (str (".html")).isSuffixOf cfg.pathName = false) :
    AngularHtmlSignalMigration.process cfg content = ⟨content, false⟩ := by
  have hts : getTsContent cfg = [] := by
    unfold getTsContent
    rcases h with h | h
    · by_cases hh : (str (".html")).isSuffixOf cfg.pathName = true
      · rw [if_pos hh]; unfold assocGet; rw [h]
      · rw [if_neg hh]
    · rw [if_neg (by rw [h]; exact Bool.false_ne_true)]
  unfold AngularHtmlSignalMigration.process migrateHtmlToSignals
  by_cases hstrip : (pyStrip content).isEmpty = true
  · rw [if_pos hstrip]; simp
  · rw [if_neg hstrip]
    simp [hts]

theorem c7_resolver_miss_witness :
    AngularHtmlSignalMigration.process ⟨str ("test.html"), []⟩ docInterpIn =
      ⟨docInterpIn, false⟩ :=
  c7_resolver_miss ⟨str ("test.html"), []⟩ docInterpIn (Or.inl rfl)

/-! ### C8: unterminated string at end of region -/

theorem classAttrQuote_is_quote (before : Str) (qc : Char)
    (h : classAttrQuote before = some qc) : qc = '\x27' ∨ qc = '\x22' := by
  unfold classAttrQuote at h
  rcases hg : ((List.range before.length).filter
      (fun i => (charAt before i).any (fun c => c = '\x27' || c = '\x22'))).getLast? with _ | j
  · rw [hg] at h; exact absurd h (by simp)
  · rw [hg] at h
    have hj : (charAt before j).any (fun c => c = '\x27' || c = '\x22') = true :=
      (List.mem_filter.mp (List.mem_of_getLast?_eq_some hg)).2
    have hcq : charAt before j = some qc := by
      dsimp only at h
      split at h
      · split at h
        · exact h
        · exact absurd h (by simp)
      · exact absurd h (by simp)
    rw [hcq] at hj
    simpa using hj

theorem attrQuote_is_quote (before : Str) (qc : Char)
    (h : attrQuote before = some qc) : qc = '\x27' ∨ qc = '\x22' := by
  unfold attrQuote at h
  rcases hg : ((List.range before.length).filter
      (fun i => (charAt before i).any (fun c => c = '\x27' || c = '\x22'))).getLast? with _ | j
  · rw [hg] at h; exact absurd h (by simp)
  · rw [hg] at h
    have hj : (charAt before j).any (fun c => c = '\x27' || c = '\x22') = true :=
      (List.mem_filter.mp (List.mem_of_getLast?_eq_some hg)).2
    have hcq : charAt before j = some qc := by
      dsimp only at h
      split at h
      · split at h
        · exact h
        · exact absurd h (by simp)
      · exact absurd h (by simp)
    rw [hcq] at hj
    simpa using hj

/-- C8 (amended): when the region after the position holds no quote of
either kind (the opened attribute string is unterminated) and no
interpolation close, the classifier reports NOT-a-string — code, the opposite
of the claimed conservative default — so the occurrence may be rewritten. -/
theorem c8_unterminated_is_code (line : Str) (pos : Nat)
    (h1 : (line.drop pos).contains '\x27' = false)
    (h2 : (line.drop pos).contains '\x22' = false)
    (h3 : containsStr (line.drop pos) (str ("\x7d\x7d")) = false) :
    isInsideString line pos = false := by
  unfold isInsideString
  have hg : interpolationGuard (line.take pos) (line.drop pos) = false := by
    unfold interpolationGuard
    simp only [h3, Bool.and_false]
  rw [hg]
  simp only [Bool.false_eq_true, if_false]
  by_cases hb : bindingExprCheck (line.take pos) (line.drop pos) = true
  · rw [if_pos hb]
  · rw [if_neg hb]
    rcases hq : classAttrQuote (line.take pos) with _ | qc
    · dsimp only
      rcases hq2 : attrQuote (line.take pos) with _ | qc2
      · rfl
      · dsimp only
        rcases attrQuote_is_quote _ _ hq2 with rfl | rfl
        · rw [h1]; rfl
        · rw [h2]; rfl
    · dsimp only
      rcases classAttrQuote_is_quote _ _ hq with rfl | rfl
      · rw [h1]
        simp only [Bool.false_eq_true, if_false]
        rcases hq2 : attrQuote (line.take pos) with _ | qc2
        · rfl
        · dsimp only
          rcases attrQuote_is_quote _ _ hq2 with rfl | rfl
          · rw [h1]; rfl
          · rw [h2]; rfl
      · rw [h2]
        simp only [Bool.false_eq_true, if_false]
        rcases hq2 : attrQuote (line.take pos) with _ | qc2
        · rfl
        · dsimp only
          rcases attrQuote_is_quote _ _ hq2 with rfl | rfl
          · rw [h1]; rfl
          · rw [h2]; rfl

/-- A line whose attribute value string is opened but never closed. -/
def docUnterminated : Str := str ("<div x=\x22rows")

theorem c8_unterminated_is_code_witness : isInsideString docUnterminated 8 = false :=
  c8_unterminated_is_code docUnterminated 8 (by decide) (by decide) (by decide)

/-- C8 (counterexample): at position 8 of `<div x=\x22rows` — after the
opening quote of an attribute value whose closing quote never occurs —
`_is_inside_string` returns `false`, not `true`, and the migration edits the
occurrence rather than suppressing it. -/
theorem c8_counterexample :
    isInsideString docUnterminated 8 = false ∧
    AngularHtmlSignalMigration.process cfgRows docUnterminated =
      ⟨str ("<div x=\x22rows()"), true⟩ := by decide

/-! ### C9: empty-input identity -/

theorem pyStrip_eq_nil (xs : Str) (h : ∀ c ∈ xs, pyIsSpace c = true) : pyStrip xs = [] := by
  unfold pyStrip lstripWs rstripWs
  rw [List.dropWhile_eq_nil_iff.mpr h]
  rfl

/-- C9: on whitespace-only (or empty) content each of the three engine entry
points returns the content unchanged with `changed = false`, for every
sibling map and — for the to-signal migration — every remainder `rest`. -/
theorem c9_empty_input_identity (rest : MigrationConfig → Str → Str)
    (cfg : MigrationConfig) (g : Unit) (content : Str)
    (h : ∀ c ∈ content, pyIsSpace c = true) :
    AngularHtmlSignalMigration.process cfg content = ⟨content, false⟩ ∧
    AngularToSignalMigration.process rest cfg content = ⟨content, false⟩ ∧
    AngularEmptyImportFix.process cfg g content = ⟨content, false⟩ := by
  have hs : (pyStrip content).isEmpty = true := by rw [pyStrip_eq_nil content h]; rfl
  refine ⟨?_, ?_, ?_⟩
  · unfold AngularHtmlSignalMigration.process migrateHtmlToSignals
    rw [if_pos hs]; simp
  · unfold AngularToSignalMigration.process migrateAngularToSignalMigration
    rw [if_pos hs]; simp
  · unfold AngularEmptyImportFix.process addEmptyImports
    rw [if_pos hs]; simp

theorem c9_empty_input_identity_witness :
    AngularHtmlSignalMigration.process cfgRows (str (" \n\t")) = ⟨str (" \n\t"), false⟩ ∧
    AngularToSignalMigration.process (fun _ c => c) cfgRows (str (" \n\t")) =
      ⟨str (" \n\t"), false⟩ ∧
    AngularEmptyImportFix.process cfgRows () (str (" \n\t")) = ⟨str (" \n\t"), false⟩ :=
  c9_empty_input_identity (fun _ c => c) cfgRows () (str (" \n\t")) (by decide)

/-! ### C10: signature extraction requires the explicit generic form -/

theorem pyIsSpace_not_word (c : Char) (h : pyIsSpace c = true) : isWordChar c = false := by
  unfold pyIsSpace at h
  simp only [Bool.or_eq_true, decide_eq_true_eq] at h
  rcases h with ((((h | h) | h) | h) | h) | h <;> subst h <;> decide

theorem takeWhile_all_append (p : Char → Bool) (a b : Str)
    (ha : ∀ c ∈ a, p c = true) (hb : ∀ c, b.head? = some c → p c = false) :
    (a ++ b).takeWhile p = a ∧ (a ++ b).dropWhile p = b := by
  induction a with
  | nil =>
    simp only [List.nil_append]
    cases b with
    | nil => exact ⟨rfl, rfl⟩
    | cons c bs =>
      have hc : p c = false := hb c rfl
      simp [List.takeWhile_cons, List.dropWhile_cons, hc]
  | cons x a ih =>
    have hx : p x = true := ha x (List.mem_cons_self _ _)
    have ih' := ih (fun c hc => ha c (List.mem_cons_of_mem _ hc))
    simp only [List.cons_append, List.takeWhile_cons, List.dropWhile_cons, hx, if_true]
    exact ⟨by rw [ih'.1], by rw [ih'.2]⟩

theorem wordRunMatchAt_none_of_ge (markers : List Str) (ts : Str) (i : Nat)
    (h : ts.length ≤ i) : wordRunMatchAt markers ts i = none := by
  unfold wordRunMatchAt
  rw [List.drop_eq_nil_of_le h]
  rfl

theorem mem_detect_aux (markers : List Str) (ts n : Str) :
    ∀ (L : List Nat) (acc : List Str),
      (n ∈ L.foldl (fun acc i =>
          match wordRunMatchAt markers ts i with
          | some m => if acc.contains m then acc else acc ++ [m]
          | none => acc) acc ↔
        n ∈ acc ∨ ∃ i, i ∈ L ∧ wordRunMatchAt markers ts i = some n) := by
  intro L
  induction L with
  | nil => intro acc; simp
  | cons x L ih =>
    intro acc
    rw [List.foldl_cons, ih]
    constructor
    · rintro (hmem | ⟨i, hi, hw⟩)
      · rcases hx : wordRunMatchAt markers ts x with _ | m
        · rw [hx] at hmem; exact Or.inl hmem
        · rw [hx] at hmem
          dsimp only at hmem
          by_cases hc : acc.contains m
          · rw [if_pos hc] at hmem; exact Or.inl hmem
          · rw [if_neg hc] at hmem
            rcases List.mem_append.mp hmem with h | h
            · exact Or.inl h
            · simp only [List.mem_singleton] at h
              subst h
              exact Or.inr ⟨x, List.mem_cons_self _ _, hx⟩
      · exact Or.inr ⟨i, List.mem_cons_of_mem _ hi, hw⟩
    · rintro (hmem | ⟨i, hi, hw⟩)
      · left
        rcases hx : wordRunMatchAt markers ts x with _ | m
        · exact hmem
        · dsimp only
          by_cases hc : acc.contains m
          · rw [if_pos hc]; exact hmem
          · rw [if_neg hc]; exact List.mem_append.mpr (Or.inl hmem)
      · rcases List.mem_cons.mp hi with rfl | hi'
        · left
          rw [hw]
          dsimp only
          by_cases hc : acc.contains n
          · rw [if_pos hc]
            have := List.elem_iff.mp hc
            exact this
          · rw [if_neg hc]
            exact List.mem_append.mpr (Or.inr (List.mem_singleton.mpr rfl))
        · exact Or.inr ⟨i, hi', hw⟩

theorem mem_detectFactoryProps (markers : List Str) (ts n : Str) :
    n ∈ detectFactoryProps markers ts ↔ ∃ i, wordRunMatchAt markers ts i = some n := by
  unfold detectFactoryProps
  rw [mem_detect_aux]
  simp only [List.not_mem_nil, false_or, List.mem_range]
  constructor
  · rintro ⟨i, _, hw⟩; exact ⟨i, hw⟩
  · rintro ⟨i, hw⟩
    by_cases hi : i < ts.length
    · exact ⟨i, hi, hw⟩
    · rw [wordRunMatchAt_none_of_ge markers ts i (by omega)] at hw
      exact absurd hw (by simp)

/-- Following the claim's wording: the content matches `name = signal<` with
optional whitespace around the `=`; `name` is a nonempty identifier run not
preceded by a word character. -/
def matchesSignalDecl (ts n : Str) : Prop :=
  ∃ pre ws1 ws2 post : Str,
    ts = pre ++ n ++ ws1 ++ ['='] ++ ws2 ++ str ("signal<") ++ post ∧
    n ≠ [] ∧ (∀ c ∈ n, isWordChar c = true) ∧
    (∀ c ∈ ws1, pyIsSpace c = true) ∧ (∀ c ∈ ws2, pyIsSpace c = true) ∧
    (pre.getLast?).any isWordChar = false

theorem wordRunMatchAt_signal_iff (ts n : Str) :
    (∃ i, wordRunMatchAt [str ("signal<")] ts i = some n) ↔ matchesSignalDecl ts n := by
  constructor
  · rintro ⟨i, h⟩
    unfold wordRunMatchAt at h
    dsimp only at h
    split at h
    · exact absurd h (by simp)
    · split at h
      · exact absurd h (by simp)
      · rename_i hrun hbound
        split at h
        · rename_i r2 heq
          split at h
          · rename_i hmark
            have hn : (ts.drop i).takeWhile isWordChar = n := Option.some.inj h
            have hpre : (str ("signal<")).isPrefixOf (r2.dropWhile pyIsSpace) = true := by
              simpa using hmark
            obtain ⟨post, hpost⟩ := List.isPrefixOf_iff_prefix.mp hpre
            have e1 : ts.drop i = n ++ (ts.drop i).dropWhile isWordChar := by
              conv_lhs => rw [← List.takeWhile_append_dropWhile isWordChar (ts.drop i)]
              rw [hn]
            have e2 : (ts.drop i).dropWhile isWordChar =
                ((ts.drop i).dropWhile isWordChar).takeWhile pyIsSpace ++ ('=' :: r2) := by
              conv_lhs => rw [← List.takeWhile_append_dropWhile pyIsSpace
                ((ts.drop i).dropWhile isWordChar)]
              rw [heq]
            have e3 : r2 = r2.takeWhile pyIsSpace ++ (str ("signal<") ++ post) := by
              conv_lhs => rw [← List.takeWhile_append_dropWhile pyIsSpace r2]
              rw [← hpost]
            refine ⟨ts.take i, ((ts.drop i).dropWhile isWordChar).takeWhile pyIsSpace,
              r2.takeWhile pyIsSpace, post, ?_, ?_, ?_, ?_, ?_, ?_⟩
            · calc ts = ts.take i ++ ts.drop i := (List.take_append_drop i ts).symm
                _ = ts.take i ++ (n ++ (ts.drop i).dropWhile isWordChar) := by rw [← e1]
                _ = ts.take i ++ (n ++ (((ts.drop i).dropWhile isWordChar).takeWhile pyIsSpace ++
                      ('=' :: r2))) := by rw [← e2]
                _ = ts.take i ++ (n ++ (((ts.drop i).dropWhile isWordChar).takeWhile pyIsSpace ++
                      ('=' :: (r2.takeWhile pyIsSpace ++ (str ("signal<") ++ post))))) := by
                      rw [← e3]
                _ = ts.take i ++ n ++ ((ts.drop i).dropWhile isWordChar).takeWhile pyIsSpace ++
                      ['='] ++ r2.takeWhile pyIsSpace ++ str ("signal<") ++ post := by simp
            · rw [← hn]; exact hrun
            · intro c hc; rw [← hn] at hc; exact List.mem_takeWhile_imp hc
            · intro c hc; exact List.mem_takeWhile_imp hc
            · intro c hc; exact List.mem_takeWhile_imp hc
            · simpa using hbound
          · exact absurd h (by simp)
        · exact absurd h (by simp)
  · rintro ⟨pre, ws1, ws2, post, hts, hne, hword, hws1, hws2, hb⟩
    subst hts
    refine ⟨pre.length, ?_⟩
    unfold wordRunMatchAt
    dsimp only
    simp only [List.append_assoc]
    rw [List.drop_left, List.take_left]
    have hbhead : ∀ c : Char,
        (ws1 ++ (['='] ++ (ws2 ++ (str ("signal<") ++ post)))).head? = some c →
        isWordChar c = false := by
      intro c hc
      cases ws1 with
      | nil =>
        simp at hc
        subst hc; decide
      | cons w ws =>
        simp at hc
        subst hc
        exact pyIsSpace_not_word w (hws1 w (List.mem_cons_self _ _))
    have htw := takeWhile_all_append isWordChar n
      (ws1 ++ (['='] ++ (ws2 ++ (str ("signal<") ++ post)))) hword hbhead
    rw [htw.1, htw.2]
    rw [if_neg hne, hb]
    simp only [Bool.false_eq_true, if_false]
    have h2 := takeWhile_all_append pyIsSpace ws1 (['='] ++ (ws2 ++ (str ("signal<") ++ post)))
      hws1 (by
        intro c hc
        have hs : (['='] ++ (ws2 ++ (str ("signal<") ++ post))).head? = some '=' := rfl
        rw [hs] at hc
        have hcs : c = '=' := (Option.some.inj hc).symm
        subst hcs
        decide)
    rw [h2.2, List.singleton_append]
    have h3 := takeWhile_all_append pyIsSpace ws2 (str ("signal<") ++ post) hws2
      (by
        intro c hc
        have hs : (str ("signal<") ++ post).head? = some 's' := rfl
        rw [hs] at hc
        have hcs : c = 's' := (Option.some.inj hc).symm
        subst hcs
        decide)
    split
    · rename_i r2 heq
      have hr2 : r2 = ws2 ++ (str ("signal<") ++ post) := by
        injection heq with hh1 hh2
        exact hh2.symm
      subst hr2
      have hpref : ([str ("signal<")].any fun m =>
          List.isPrefixOf m (List.dropWhile pyIsSpace (ws2 ++ (str ("signal<") ++ post)))) = true := by
        rw [h3.2]
        simp only [List.any_cons, List.any_nil, Bool.or_false]
        exact List.isPrefixOf_iff_prefix.mpr (List.prefix_append _ _)
      rw [if_pos hpref]
    · rename_i hbad
      exact absurd rfl (hbad (ws2 ++ (str ("signal<") ++ post)))

/-- C10: an identifier is placed in the writable-signal set by
`_detect_signal_properties` iff the TypeScript content matches
`name = signal<` (optional whitespace around `=`); a declaration without the
type argument (`rows = signal(0)`) is not detected, so the paired HTML
document receives no parentheses. -/
theorem c10_signal_detection :
    (∀ ts n : Str, n ∈ detectSignalProperties ts ↔ matchesSignalDecl ts n) ∧
    detectSignalProperties tsRowsNoType = [] ∧
    AngularHtmlSignalMigration.process cfgRowsNoType docInterpIn = ⟨docInterpIn, false⟩ := by
  refine ⟨?_, by decide, by decide⟩
  intro ts n
  rw [show detectSignalProperties ts = detectFactoryProps [str ("signal<")] ts from rfl]
  rw [mem_detectFactoryProps]
  exact wordRunMatchAt_signal_iff ts n

theorem c6_matcher_safety_witness :
    findMatchingClosingBrace docUnclosed 12 = -1 ∨
    ∃ j : Nat, findMatchingClosingBrace docUnclosed 12 = (j : Int) ∧
      12 ≤ j ∧ j < docUnclosed.length ∧ docUnclosed.getD j ' ' = '\x7d' ∧
      fmcbGo docUnclosed (docUnclosed.length + 1) 12 1 false none false false =
        ((j : Int), false, false, false) :=
  c6_matcher_safety.1 docUnclosed 12

theorem c10_signal_detection_witness : matchesSignalDecl tsRowsSignal (str ("rows")) :=
  (c10_signal_detection.1 tsRowsSignal (str ("rows"))).mp (by decide)
